import Mathlib

/-!
Shallow embedding of `src/effects/backends/builtin/whitenoiseeffect.cpp`
(the per-buffer channel processor of the WhiteNoise effect) and proofs about it.

Audio samples, gains and control values (C++ `float`/`double`) are embedded
as exact rationals `ℚ`; corner frequencies, which go through a transcendental
`std::pow`, are embedded as reals `ℝ`.  Components of the repository that the
processor calls but whose code is not part of the embedded sources (the
random generator, the two biquad filters, `SampleUtil::copy`, and
`RampingValue`) are either taken as abstract function parameters or modelled
from the specification, as noted on each definition.
-/

namespace WhiteNoise

/-- Constant `kMinFreq` from whitenoiseeffect.cpp (line 11). -/
def kMinFreq : ℝ := 100

/-- Constant `kMaxFreq` from whitenoiseeffect.cpp (line 12). -/
def kMaxFreq : ℝ := 22050

/-- Template `map_value` from whitenoiseeffect.cpp (lines 14-21):
`output_from + (value - input_from) / (input_to - input_from) * (output_to - output_from)`. -/
def map_value (value input_from input_to output_from output_to : ℚ) : ℚ :=
  output_from + (value - input_from) / (input_to - input_from) * (output_to - output_from)

/-- The dry/wet dead-zone half width, `drywet_deadzone = 0.01f`
(whitenoiseeffect.cpp line 92). -/
def drywet_deadzone : ℚ := 1 / 100

/-- The dead-zone remap of the raw dry/wet control, lines 98-120 of
whitenoiseeffect.cpp: in the `Disabling` state the value is forced to `0.5`;
otherwise values within `0.01` of `0.5` collapse to `0.5`, values at or above
`0.5 + 0.01` are remapped by `map_value v 0.51 1 0.5 1`, and values at or
below `0.5 - 0.01` are remapped by `map_value v 0 0.99 0 1`. -/
def deadzoned (drywet : ℚ) (disabling : Bool) : ℚ :=
  if disabling then 1 / 2
  else if drywet ≥ 1 / 2 then
    if drywet < 1 / 2 + drywet_deadzone then 1 / 2
    else map_value drywet (1 / 2 + drywet_deadzone) 1 (1 / 2) 1
  else
    if drywet > 1 / 2 - drywet_deadzone then 1 / 2
    else map_value drywet 0 (1 - drywet_deadzone) 0 1

/-- The wet gain, line 123 of whitenoiseeffect.cpp:
`gain = std::min(1.0f, std::abs(drywet_deadzoned - 0.5f) * 2.0f)`. -/
def wet_gain (drywet : ℚ) (disabling : Bool) : ℚ :=
  min 1 (|deadzoned drywet disabling - 1 / 2| * 2)

/-- Function `interpolate_log` from whitenoiseeffect.cpp (lines 23-32): clamps the
input to `[0, 1]`, then returns `fMin * (fMax / fMin) ^ x` (real-exponent
power, `std::pow`). -/
noncomputable def interpolate_log (x fMin fMax : ℝ) : ℝ :=
  let x0 := if x < 0 then 0 else x
  let x1 := if x0 > 1 then 1 else x0
  fMin * (fMax / fMin) ^ x1

/-- Embedding of `std::clamp(v, lo, hi)`: `lo` if `v < lo`, else `hi` if `hi < v`, else `v`. -/
noncomputable def stdClamp (v lo hi : ℝ) : ℝ :=
  if v < lo then lo else if hi < v then hi else v

/-- The high-pass corner frequency handed to `gs.m_highpass` on the active
path (whitenoiseeffect.cpp lines 138-151): initialised to `kMinFreq`; when
the raw (pre-deadzone) dry/wet is below `0.5` it is replaced by
`std::clamp(interpolate_log(drywet * 2, kMinFreq, kMaxFreq), kMinFreq, kMaxFreq)`. -/
noncomputable def hp_center_freq (drywet : ℝ) : ℝ :=
  if drywet < 1 / 2 then
    stdClamp (interpolate_log (drywet * 2) kMinFreq kMaxFreq) kMinFreq kMaxFreq
  else kMinFreq

/-- The low-pass corner frequency handed to `gs.m_lowpass` on the active
path (whitenoiseeffect.cpp lines 139-152): initialised to `kMaxFreq`; when
the raw dry/wet is at or above `0.5` it is replaced by
`std::clamp(interpolate_log((drywet - 0.5) * 2, kMinFreq, kMaxFreq), kMinFreq, kMaxFreq)`. -/
noncomputable def lp_center_freq (drywet : ℝ) : ℝ :=
  if drywet < 1 / 2 then kMaxFreq
  else stdClamp (interpolate_log ((drywet - 1 / 2) * 2) kMinFreq kMaxFreq) kMinFreq kMaxFreq

/-- Modelled from the spec: `RampingValue<T>::getNth` (util/rampingvalue.h is
not among the embedded sources).  Per the Ramp Generator contract (§4.4),
`valueAtFrame(previous, current, i, n) = previous + (current - previous) * i / n`. -/
def rampAt (previous current : ℚ) (i n : ℕ) : ℚ :=
  previous + (current - previous) * (i : ℚ) / (n : ℚ)

/-- The per-channel persistent state `WhiteNoiseGroupState`.  The random
generator state (`std::mt19937 gen`) and the two `EngineFilterBiquad1`
states are outside the embedded sources, so their types are parameters. -/
structure WhiteNoiseGroupState (G F : Type) where
  previous_gain : ℚ
  previous_q : ℚ
  gen : G
  hpFilter : F
  lpFilter : F
  m_noiseBuffer : List ℚ
  m_filteredBuffer : List ℚ

/-- The noise-generation loop of whitenoiseeffect.cpp (lines 131-136):
draws `n` samples from the abstract generator step, threading its state. -/
def genNoise {G : Type} (noiseStep : G → ℚ × G) : G → ℕ → List ℚ × G
  | g, 0 => ([], g)
  | g, n + 1 =>
    let p := noiseStep g
    let r := genNoise noiseStep p.2 n
    (p.1 :: r.1, r.2)

/-- Embedding of `WhiteNoiseEffect::processChannel` (whitenoiseeffect.cpp lines 81-178),
embedded over exact rationals.  Components whose code is not among the
embedded sources are abstract parameters:
* `noiseStep` — one draw of `std::uniform_real_distribution<>(-1.0, 1.0)`
  from the persistent generator (modelled from the spec, §4.1);
* `setFrequencyCorners sampleRate freq q st` — `EngineFilterBiquad1::setFrequencyCorners`;
* `filterProcess st input` — `EngineFilterBiquad1::process`, returning the
  produced buffer and the updated filter state.
`SampleUtil::copy` on the bypass path is modelled from the spec (§4.5 step 2,
"copy the dry input directly to the output") as `List.take bufferSize pInput`.
Returns the output buffer and the updated group state. -/
noncomputable def processChannel {G F : Type}
    (noiseStep : G → ℚ × G)
    (setFrequencyCorners : ℚ → ℝ → ℚ → F → F)
    (filterProcess : F → List ℚ → List ℚ × F)
    (gs : WhiteNoiseGroupState G F)
    (pInput : List ℚ) (sampleRate : ℚ) (bufferSize : ℕ)
    (drywet q : ℚ) (disabling : Bool) :
    List ℚ × WhiteNoiseGroupState G F :=
  let gain := wet_gain drywet disabling
  if gain > 1 / 10000 ∨ gs.previous_gain > 1 / 10000 then
    let noiseRes := genNoise noiseStep gs.gen bufferSize
    let hpF := setFrequencyCorners sampleRate (hp_center_freq (drywet : ℝ)) q gs.hpFilter
    let lpF := setFrequencyCorners sampleRate (lp_center_freq (drywet : ℝ)) q gs.lpFilter
    let hpRes := filterProcess hpF noiseRes.1
    let lpRes := filterProcess lpF hpRes.1
    let output := (List.range bufferSize).map fun i =>
      let gain_ramped := rampAt gs.previous_gain gain i bufferSize
      pInput.getD i 0 * (1 - gain_ramped) + lpRes.1.getD i 0 * gain_ramped
    (output,
      { previous_gain := gain
        previous_q := q
        gen := noiseRes.2
        hpFilter := hpRes.2
        lpFilter := lpRes.2
        m_noiseBuffer := noiseRes.1
        m_filteredBuffer := lpRes.1 })
  else
    (pInput.take bufferSize,
      { gs with previous_gain := gain, previous_q := q })

/-! ### Helper lemmas -/

lemma getD_map_range {α : Type} (f : ℕ → α) (d : α) {n i : ℕ} (h : i < n) :
    ((List.range n).map f).getD i d = f i := by
  have hlen : i < ((List.range n).map f).length := by simpa using h
  rw [List.getD_eq_getElem _ _ hlen]
  simp

/-- If the deadzoned value is below the centre, the raw value was at or
below the lower band edge `0.49`. -/
lemma raw_le_of_deadzoned_lt_half {v : ℚ} (h : deadzoned v false < 1 / 2) :
    v ≤ 49 / 100 := by
  by_contra hc
  push_neg at hc
  simp only [deadzoned, drywet_deadzone, map_value, Bool.false_eq_true, if_false] at h
  split_ifs at h with h1 h2 h3
  · linarith
  · rw [div_eq_mul_inv] at h
    norm_num at h
    linarith
  · linarith
  · linarith

/-- If the deadzoned value is above the centre, the raw value was at or
above the upper band edge `0.51`. -/
lemma raw_ge_of_half_lt_deadzoned {v : ℚ} (h : 1 / 2 < deadzoned v false) :
    51 / 100 ≤ v := by
  by_contra hc
  push_neg at hc
  simp only [deadzoned, drywet_deadzone, map_value, Bool.false_eq_true, if_false] at h
  split_ifs at h with h1 h2 h3
  · linarith
  · linarith
  · linarith
  · rw [div_eq_mul_inv] at h
    norm_num at h
    linarith

lemma stdClamp_eq {v lo hi : ℝ} (h1 : lo ≤ v) (h2 : v ≤ hi) : stdClamp v lo hi = v := by
  simp only [stdClamp]
  rw [if_neg (not_lt.mpr h1), if_neg (not_lt.mpr h2)]

lemma stdClamp_bounds {v lo hi : ℝ} (h : lo ≤ hi) :
    lo ≤ stdClamp v lo hi ∧ stdClamp v lo hi ≤ hi := by
  simp only [stdClamp]
  split_ifs with h1 h2
  · exact ⟨le_refl _, h⟩
  · exact ⟨h, le_refl _⟩
  · exact ⟨not_lt.mp h1, not_lt.mp h2⟩

/-- On inputs already in `[0, 1]` the input clamp inside `interpolate_log`
is the identity, leaving the pure logarithmic-interpolation formula. -/
lemma interpolate_log_eq {x : ℝ} (h0 : 0 ≤ x) (h1 : x ≤ 1) :
    interpolate_log x kMinFreq kMaxFreq = kMinFreq * (kMaxFreq / kMinFreq) ^ x := by
  simp only [interpolate_log]
  rw [if_neg (not_lt.mpr h0), if_neg (not_lt.mpr h1)]

lemma rpow_ratio_bounds {x : ℝ} (h0 : 0 ≤ x) (h1 : x ≤ 1) :
    (1 : ℝ) ≤ (kMaxFreq / kMinFreq) ^ x ∧ (kMaxFreq / kMinFreq) ^ x ≤ kMaxFreq / kMinFreq := by
  have hb : (1 : ℝ) ≤ kMaxFreq / kMinFreq := by norm_num [kMinFreq, kMaxFreq]
  constructor
  · calc (1 : ℝ) = (kMaxFreq / kMinFreq) ^ (0 : ℝ) := (Real.rpow_zero _).symm
      _ ≤ (kMaxFreq / kMinFreq) ^ x := Real.rpow_le_rpow_of_exponent_le hb h0
  · calc (kMaxFreq / kMinFreq) ^ x ≤ (kMaxFreq / kMinFreq) ^ (1 : ℝ) :=
        Real.rpow_le_rpow_of_exponent_le hb h1
      _ = kMaxFreq / kMinFreq := Real.rpow_one _

/-- For exponents in `[0, 1]` the logarithmic interpolation lands inside
`[kMinFreq, kMaxFreq]`, so the surrounding `std::clamp` is the identity. -/
lemma corner_formula_bounds {x : ℝ} (h0 : 0 ≤ x) (h1 : x ≤ 1) :
    kMinFreq ≤ kMinFreq * (kMaxFreq / kMinFreq) ^ x ∧
    kMinFreq * (kMaxFreq / kMinFreq) ^ x ≤ kMaxFreq := by
  obtain ⟨hl, hu⟩ := rpow_ratio_bounds h0 h1
  simp only [kMinFreq, kMaxFreq] at hl hu ⊢
  constructor
  · nlinarith
  · nlinarith

/-! ### C2: dead-zone remap continuity -/

/-- C2 counterexample: the claim says a value at the inner edge of the dead
band approached from outside maps to exactly the neutral value `0.5`.  At the
lower edge `0.49` (the largest value the lower remap branch applies to) the
code maps to `0.49 / 0.99 = 49/99 ≠ 1/2`, so the remap is *not* continuous at
the lower band edge. -/
theorem c2_deadzone_lower_edge_jump : deadzoned (49 / 100) false ≠ 1 / 2 := by
  norm_num [deadzoned, map_value, drywet_deadzone]

/-- C2 (amended): the remap is continuous at the *upper* band edge — `0.51`
maps to exactly `0.5` and `[0.51, 1]` fills `[0.5, 1]` affinely — but the
lower outside range `[0, 0.49]` is remapped by `v ↦ v / 0.99` onto
`[0, 49/99]`, so the value at the lower inner edge maps to `49/99`, leaving a
jump of `1/2 - 49/99 = 1/198` at the lower band edge. -/
theorem c2_deadzone_remap (v : ℚ) :
    deadzoned (51 / 100) false = 1 / 2 ∧
    (51 / 100 ≤ v → v ≤ 1 →
      deadzoned v false = 1 / 2 + (v - 51 / 100) / (49 / 100) * (1 / 2)) ∧
    (0 ≤ v → v ≤ 49 / 100 → deadzoned v false = v * (100 / 99)) ∧
    deadzoned (49 / 100) false = 49 / 99 ∧ (1 : ℚ) / 2 - 49 / 99 = 1 / 198 := by
  refine ⟨by norm_num [deadzoned, map_value, drywet_deadzone], ?_, ?_,
    by norm_num [deadzoned, map_value, drywet_deadzone], by norm_num⟩
  · intro hl hu
    simp only [deadzoned, drywet_deadzone, map_value, Bool.false_eq_true, if_false]
    split_ifs with h1 h2 h3
    · linarith
    · ring
    · linarith
    · linarith
  · intro hl hu
    simp only [deadzoned, drywet_deadzone, map_value, Bool.false_eq_true, if_false]
    split_ifs with h1 h2 h3
    · linarith
    · linarith
    · linarith
    · norm_num [div_eq_mul_inv]

/-- Witness for `c2_deadzone_remap` at `v = 6/10`. -/
theorem c2_deadzone_remap_witness :
    (51 : ℚ) / 100 ≤ 6 / 10 ∧ (6 : ℚ) / 10 ≤ 1 ∧
    deadzoned (6 / 10) false = 1 / 2 + (6 / 10 - 51 / 100) / (49 / 100) * (1 / 2) :=
  ⟨by norm_num, by norm_num,
    (c2_deadzone_remap (6 / 10)).2.1 (by norm_num) (by norm_num)⟩

/-! ### C3: filter branch selection and logarithmic corner mapping -/

/-- C3: when the deadzoned dry/wet is below `0.5` the high-pass corner is
`fMin * (fMax/fMin) ^ (rawDryWet * 2)` (the `[0,1]` input clamp and the
outer `std::clamp` are both no-ops there) while the low-pass corner stays
pinned at `fMax`; when it is above `0.5` the low-pass corner is
`fMin * (fMax/fMin) ^ ((rawDryWet - 0.5) * 2)` while the high-pass corner
stays pinned at `fMin`; in particular raw dry/wet `= 0.25` yields a
high-pass corner of `sqrt(fMin * fMax)`. -/
theorem c3_corner_selection (drywet : ℚ) (h0 : 0 ≤ drywet) (h1 : drywet ≤ 1) :
    (deadzoned drywet false < 1 / 2 →
      hp_center_freq (drywet : ℝ) = kMinFreq * (kMaxFreq / kMinFreq) ^ ((drywet : ℝ) * 2) ∧
      lp_center_freq (drywet : ℝ) = kMaxFreq) ∧
    (1 / 2 < deadzoned drywet false →
      lp_center_freq (drywet : ℝ) =
        kMinFreq * (kMaxFreq / kMinFreq) ^ (((drywet : ℝ) - 1 / 2) * 2) ∧
      hp_center_freq (drywet : ℝ) = kMinFreq) ∧
    (drywet = 1 / 4 → hp_center_freq (drywet : ℝ) = Real.sqrt (kMinFreq * kMaxFreq)) := by
  have h0R : (0 : ℝ) ≤ (drywet : ℝ) := by exact_mod_cast h0
  have h1R : (drywet : ℝ) ≤ 1 := by exact_mod_cast h1
  refine ⟨?_, ?_, ?_⟩
  · intro hdz
    have hle : drywet ≤ 49 / 100 := raw_le_of_deadzoned_lt_half hdz
    have hleR : (drywet : ℝ) ≤ 49 / 100 := by
      rw [show (49 : ℝ) / 100 = ((49 / 100 : ℚ) : ℝ) by norm_num]
      exact_mod_cast hle
    have hlt : (drywet : ℝ) < 1 / 2 := by linarith
    constructor
    · simp only [hp_center_freq]
      rw [if_pos hlt, interpolate_log_eq (by linarith) (by linarith)]
      obtain ⟨hlo, hhi⟩ := corner_formula_bounds
        (x := (drywet : ℝ) * 2) (by linarith) (by linarith)
      exact stdClamp_eq hlo hhi
    · simp only [lp_center_freq]
      rw [if_pos hlt]
  · intro hdz
    have hge : 51 / 100 ≤ drywet := raw_ge_of_half_lt_deadzoned hdz
    have hgeR : (51 : ℝ) / 100 ≤ (drywet : ℝ) := by
      rw [show (51 : ℝ) / 100 = ((51 / 100 : ℚ) : ℝ) by norm_num]
      exact_mod_cast hge
    have hnlt : ¬ (drywet : ℝ) < 1 / 2 := by push_neg; linarith
    constructor
    · simp only [lp_center_freq]
      rw [if_neg hnlt, interpolate_log_eq (by linarith) (by linarith)]
      obtain ⟨hlo, hhi⟩ := corner_formula_bounds
        (x := ((drywet : ℝ) - 1 / 2) * 2) (by linarith) (by linarith)
      exact stdClamp_eq hlo hhi
    · simp only [hp_center_freq]
      rw [if_neg hnlt]
  · intro h14
    subst h14
    have hlt : ((1 / 4 : ℚ) : ℝ) < 1 / 2 := by norm_num
    simp only [hp_center_freq]
    rw [if_pos hlt]
    have hx : ((1 / 4 : ℚ) : ℝ) * 2 = 1 / 2 := by norm_num
    rw [interpolate_log_eq (by norm_num [hx]) (by norm_num [hx]), hx]
    obtain ⟨hlo, hhi⟩ := corner_formula_bounds (x := (1 / 2 : ℝ)) (by norm_num) (by norm_num)
    rw [stdClamp_eq hlo hhi]
    rw [← Real.sqrt_eq_rpow]
    simp only [kMinFreq, kMaxFreq]
    rw [show (100 : ℝ) * 22050 = 100 ^ 2 * (22050 / 100) by norm_num,
      Real.sqrt_mul (by positivity), Real.sqrt_sq (by norm_num)]

/-- Witness for `c3_corner_selection` at raw dry/wet `= 1/4`. -/
theorem c3_corner_selection_witness :
    (0 : ℚ) ≤ 1 / 4 ∧ (1 / 4 : ℚ) ≤ 1 ∧
    hp_center_freq ((1 / 4 : ℚ) : ℝ) = Real.sqrt (kMinFreq * kMaxFreq) :=
  ⟨by norm_num, by norm_num,
    (c3_corner_selection (1 / 4) (by norm_num) (by norm_num)).2.2 rfl⟩

/-! ### C7: corner-frequency clamping -/

/-- C7 counterexample: the claim says the corner handed to each filter lies
strictly inside `(0, sampleRate / 2)` for every positive sample rate.  For
the (positive) sample rate `22050` and raw dry/wet `0.25`, the low-pass
corner handed to the filter is the pinned `kMaxFreq = 22050`, which is not
below `22050 / 2`. -/
theorem c7_no_nyquist_clamp :
    (0 : ℝ) < 22050 ∧ lp_center_freq ((1 : ℝ) / 4) = 22050 ∧
    ¬ lp_center_freq ((1 : ℝ) / 4) < 22050 / 2 := by
  have h : lp_center_freq ((1 : ℝ) / 4) = kMaxFreq := by
    simp only [lp_center_freq]
    rw [if_pos (by norm_num)]
  refine ⟨by norm_num, ?_, ?_⟩
  · rw [h]; norm_num [kMaxFreq]
  · rw [h]; norm_num [kMaxFreq]

/-- C7 (amended): the corner frequency handed to each of the two filters is
clamped into `[kMinFreq, kMaxFreq] = [100, 22050]` for every requested
dry/wet value — so it is always positive — but no clamp against the Nyquist
bound is applied: the corner lies strictly inside `(0, sampleRate / 2)` only
when the sample rate exceeds `2 * kMaxFreq = 44100`. -/
theorem c7_corner_clamped (x sr : ℝ) (hsr : 44100 < sr) :
    (kMinFreq ≤ hp_center_freq x ∧ hp_center_freq x ≤ kMaxFreq) ∧
    (kMinFreq ≤ lp_center_freq x ∧ lp_center_freq x ≤ kMaxFreq) ∧
    (0 < hp_center_freq x ∧ hp_center_freq x < sr / 2) ∧
    (0 < lp_center_freq x ∧ lp_center_freq x < sr / 2) := by
  have hminmax : kMinFreq ≤ kMaxFreq := by norm_num [kMinFreq, kMaxFreq]
  have hhp : kMinFreq ≤ hp_center_freq x ∧ hp_center_freq x ≤ kMaxFreq := by
    simp only [hp_center_freq]
    split_ifs
    · exact stdClamp_bounds hminmax
    · exact ⟨le_refl _, hminmax⟩
  have hlp : kMinFreq ≤ lp_center_freq x ∧ lp_center_freq x ≤ kMaxFreq := by
    simp only [lp_center_freq]
    split_ifs
    · exact ⟨hminmax, le_refl _⟩
    · exact stdClamp_bounds hminmax
  have hminpos : (0 : ℝ) < kMinFreq := by norm_num [kMinFreq]
  have hmaxsr : kMaxFreq < sr / 2 := by
    simp only [kMaxFreq]
    linarith
  exact ⟨hhp, hlp,
    ⟨lt_of_lt_of_le hminpos hhp.1, lt_of_le_of_lt hhp.2 hmaxsr⟩,
    ⟨lt_of_lt_of_le hminpos hlp.1, lt_of_le_of_lt hlp.2 hmaxsr⟩⟩

/-- Witness for `c7_corner_clamped` at `x = 7/10`, `sr = 48000`. -/
theorem c7_corner_clamped_witness :
    (44100 : ℝ) < 48000 ∧
    0 < lp_center_freq (7 / 10) ∧ lp_center_freq (7 / 10) < 48000 / 2 :=
  ⟨by norm_num,
    (c7_corner_clamped (7 / 10) 48000 (by norm_num)).2.2.2.1,
    (c7_corner_clamped (7 / 10) 48000 (by norm_num)).2.2.2.2⟩

/-! ### Concrete component instantiations used by witnesses -/

/-- A concrete noise generator for witnesses: always draws `1` and counts. -/
def unitNoiseStep : ℕ → ℚ × ℕ := fun g => (1, g + 1)

/-- A concrete (state-free) `setFrequencyCorners` for witnesses. -/
def trivialSetCorners : ℚ → ℝ → ℚ → Unit → Unit := fun _ _ _ st => st

/-- A concrete pass-through filter for witnesses. -/
def identityProcess : Unit → List ℚ → List ℚ × Unit := fun st xs => (xs, st)

/-- A group state whose stored previous gain `1` is above the bypass
threshold. -/
def activeState : WhiteNoiseGroupState ℕ Unit :=
  ⟨1, 1, 0, (), (), [], []⟩

/-- A group state whose stored previous gain `0` is below the bypass
threshold. -/
def bypassState : WhiteNoiseGroupState ℕ Unit :=
  ⟨0, 1, 0, (), (), [], []⟩

/-! ### C1: sample-accurate ramped crossfade on the active path -/

/-- C1: on the active path (current target wet gain or stored previous wet
gain above the bypass threshold), each output sample `i` equals
`input[i] * (1 - c_i) + filtered[i] * c_i` where
`c_i = previous_gain + (gain - previous_gain) * i / bufferSize` ramps
linearly from the stored previous gain to the current target gain, and
`c_0` equals the previous gain, so a parameter change is never applied as a
step at frame 0. -/
theorem c1_active_ramped_mix {G F : Type}
    (noiseStep : G → ℚ × G) (setFrequencyCorners : ℚ → ℝ → ℚ → F → F)
    (filterProcess : F → List ℚ → List ℚ × F)
    (gs : WhiteNoiseGroupState G F) (pInput : List ℚ)
    (sampleRate : ℚ) (bufferSize : ℕ) (drywet q : ℚ) (disabling : Bool)
    (hactive : 1 / 10000 < wet_gain drywet disabling ∨ 1 / 10000 < gs.previous_gain) :
    (∀ i, i < bufferSize →
      (processChannel noiseStep setFrequencyCorners filterProcess gs pInput
          sampleRate bufferSize drywet q disabling).1.getD i 0 =
        pInput.getD i 0 *
          (1 - (gs.previous_gain +
            (wet_gain drywet disabling - gs.previous_gain) * (i : ℚ) / (bufferSize : ℚ))) +
        (processChannel noiseStep setFrequencyCorners filterProcess gs pInput
            sampleRate bufferSize drywet q disabling).2.m_filteredBuffer.getD i 0 *
          (gs.previous_gain +
            (wet_gain drywet disabling - gs.previous_gain) * (i : ℚ) / (bufferSize : ℚ))) ∧
    rampAt gs.previous_gain (wet_gain drywet disabling) 0 bufferSize = gs.previous_gain := by
  constructor
  · intro i hi
    simp only [processChannel]
    rw [if_pos hactive]
    rw [getD_map_range _ _ hi]
    simp only [rampAt]
  · simp [rampAt]

/-- Witness for `c1_active_ramped_mix`: previous gain `1` is above the
threshold, buffer size `2`, sample index `1`. -/
theorem c1_active_ramped_mix_witness :
    ((1 : ℚ) / 10000 < wet_gain (1 / 2) false ∨
      (1 : ℚ) / 10000 < activeState.previous_gain) ∧ 1 < 2 ∧
    (processChannel unitNoiseStep trivialSetCorners identityProcess activeState
        [0, 0] 44100 2 (1 / 2) 1 false).1.getD 1 0 =
      ([0, 0] : List ℚ).getD 1 0 *
        (1 - (activeState.previous_gain +
          (wet_gain (1 / 2) false - activeState.previous_gain) * ((1 : ℕ) : ℚ) / ((2 : ℕ) : ℚ))) +
      (processChannel unitNoiseStep trivialSetCorners identityProcess activeState
          [0, 0] 44100 2 (1 / 2) 1 false).2.m_filteredBuffer.getD 1 0 *
        (activeState.previous_gain +
          (wet_gain (1 / 2) false - activeState.previous_gain) * ((1 : ℕ) : ℚ) / ((2 : ℕ) : ℚ)) :=
  ⟨Or.inr (by norm_num [activeState]), by norm_num,
    (c1_active_ramped_mix unitNoiseStep trivialSetCorners identityProcess activeState
        [0, 0] 44100 2 (1 / 2) 1 false
        (Or.inr (by norm_num [activeState]))).1 1 (by norm_num)⟩

/-! ### C4: wet gain formula -/

/-- C4: outside the Disabling state, the wet gain stored by the call (the
same value the mix on the active path ramps to) equals
`min(1, 2 * |deadzonedValue - 0.5|)`. -/
theorem c4_wet_gain_formula {G F : Type}
    (noiseStep : G → ℚ × G) (setFrequencyCorners : ℚ → ℝ → ℚ → F → F)
    (filterProcess : F → List ℚ → List ℚ × F)
    (gs : WhiteNoiseGroupState G F) (pInput : List ℚ)
    (sampleRate : ℚ) (bufferSize : ℕ) (drywet q : ℚ) :
    (processChannel noiseStep setFrequencyCorners filterProcess gs pInput
        sampleRate bufferSize drywet q false).2.previous_gain =
      min 1 (2 * |deadzoned drywet false - 1 / 2|) := by
  simp only [processChannel]
  split_ifs <;> simp [wet_gain, mul_comm]

/-! ### C5: bypass fast path copies the dry input -/

/-- C5: when both the current target wet gain and the stored previous wet
gain are below the bypass threshold `0.0001`, the output buffer is an exact
copy of the dry input buffer and the noise generator state is left
untouched (no synthesis happens). -/
theorem c5_bypass_copies_input {G F : Type}
    (noiseStep : G → ℚ × G) (setFrequencyCorners : ℚ → ℝ → ℚ → F → F)
    (filterProcess : F → List ℚ → List ℚ × F)
    (gs : WhiteNoiseGroupState G F) (pInput : List ℚ)
    (sampleRate : ℚ) (bufferSize : ℕ) (drywet q : ℚ) (disabling : Bool)
    (hg : wet_gain drywet disabling < 1 / 10000)
    (hp : gs.previous_gain < 1 / 10000)
    (hlen : pInput.length = bufferSize) :
    (processChannel noiseStep setFrequencyCorners filterProcess gs pInput
        sampleRate bufferSize drywet q disabling).1 = pInput ∧
    (processChannel noiseStep setFrequencyCorners filterProcess gs pInput
        sampleRate bufferSize drywet q disabling).2.gen = gs.gen := by
  have hcond : ¬ (wet_gain drywet disabling > 1 / 10000 ∨ gs.previous_gain > 1 / 10000) := by
    push_neg
    exact ⟨le_of_lt hg, le_of_lt hp⟩
  simp only [processChannel]
  rw [if_neg hcond]
  exact ⟨by rw [← hlen, List.take_length], rfl⟩

/-- Witness for `c5_bypass_copies_input`: raw dry/wet at the dead-zone
centre and previous gain `0`. -/
theorem c5_bypass_copies_input_witness :
    wet_gain (1 / 2) false < 1 / 10000 ∧
    bypassState.previous_gain < 1 / 10000 ∧
    ([3, 5] : List ℚ).length = 2 ∧
    (processChannel unitNoiseStep trivialSetCorners identityProcess bypassState
        [3, 5] 44100 2 (1 / 2) 1 false).1 = [3, 5] :=
  ⟨by norm_num [wet_gain, deadzoned, drywet_deadzone],
    by norm_num [bypassState], by norm_num,
    (c5_bypass_copies_input unitNoiseStep trivialSetCorners identityProcess bypassState
        [3, 5] 44100 2 (1 / 2) 1 false
        (by norm_num [wet_gain, deadzoned, drywet_deadzone])
        (by norm_num [bypassState]) (by norm_num)).1⟩

/-! ### C6: Disabling forces the stored gain to the bypass value -/

/-- C6: on a call with enable state Disabling, the deadzoned control is
forced to the centre, so the wet gain is `0` and the stored previous gain
after the call is the bypass value `0`, regardless of the raw dry/wet
reading — the ramp of the next buffer starts from full dry. -/
theorem c6_disabling_stores_bypass_gain {G F : Type}
    (noiseStep : G → ℚ × G) (setFrequencyCorners : ℚ → ℝ → ℚ → F → F)
    (filterProcess : F → List ℚ → List ℚ × F)
    (gs : WhiteNoiseGroupState G F) (pInput : List ℚ)
    (sampleRate : ℚ) (bufferSize : ℕ) (drywet q : ℚ) :
    wet_gain drywet true = 0 ∧
    (processChannel noiseStep setFrequencyCorners filterProcess gs pInput
        sampleRate bufferSize drywet q true).2.previous_gain = 0 := by
  have hw : wet_gain drywet true = 0 := by
    norm_num [wet_gain, deadzoned]
  refine ⟨hw, ?_⟩
  simp only [processChannel]
  split_ifs <;> simp [hw]

/-! ### C8: dead-zone centre -/

/-- C8 counterexample: with raw dry/wet exactly `0.5` but a stored previous
gain of `1` (above the bypass threshold), the call takes the active path and
ramps down from the previous gain, so the output is *not* equal to the dry
input: with a unit noise source and pass-through filters the output is
`[1, 1/2]` while the input is `[0, 0]`. -/
theorem c8_previous_gain_breaks_identity :
    (processChannel unitNoiseStep trivialSetCorners identityProcess activeState
        [0, 0] 44100 2 (1 / 2) 1 false).1 ≠ [0, 0] := by
  simp [processChannel, wet_gain, deadzoned, map_value, drywet_deadzone, genNoise,
    rampAt, unitNoiseStep, trivialSetCorners, identityProcess, activeState,
    List.range_succ, min_def]
  norm_num

/-- C8 (amended): if the raw dry/wet control is exactly `0.5` *and* the
stored previous gain is below the bypass threshold, the wet gain is `0` and
the output buffer equals the dry input regardless of the Q control value. -/
theorem c8_centre_is_dry {G F : Type}
    (noiseStep : G → ℚ × G) (setFrequencyCorners : ℚ → ℝ → ℚ → F → F)
    (filterProcess : F → List ℚ → List ℚ × F)
    (gs : WhiteNoiseGroupState G F) (pInput : List ℚ)
    (sampleRate : ℚ) (bufferSize : ℕ) (q : ℚ)
    (hp : gs.previous_gain < 1 / 10000)
    (hlen : pInput.length = bufferSize) :
    wet_gain (1 / 2) false = 0 ∧
    (processChannel noiseStep setFrequencyCorners filterProcess gs pInput
        sampleRate bufferSize (1 / 2) q false).1 = pInput := by
  have hw : wet_gain (1 / 2) false = 0 := by
    norm_num [wet_gain, deadzoned, drywet_deadzone]
  refine ⟨hw, ?_⟩
  exact (c5_bypass_copies_input noiseStep setFrequencyCorners filterProcess gs pInput
    sampleRate bufferSize (1 / 2) q false (by rw [hw]; norm_num) hp hlen).1

/-- Witness for `c8_centre_is_dry` with Q `= 7` and previous gain `0`. -/
theorem c8_centre_is_dry_witness :
    bypassState.previous_gain < 1 / 10000 ∧ ([3, 5] : List ℚ).length = 2 ∧
    (processChannel unitNoiseStep trivialSetCorners identityProcess bypassState
        [3, 5] 44100 2 (1 / 2) 7 false).1 = [3, 5] :=
  ⟨by norm_num [bypassState], by norm_num,
    (c8_centre_is_dry unitNoiseStep trivialSetCorners identityProcess bypassState
        [3, 5] 44100 2 7 (by norm_num [bypassState]) (by norm_num)).2⟩

/-! ### C9: stored gain stays in the unit interval -/

/-- C9: after every call, for every combination of control values and enable
state, the stored previous smoothed gain lies in `[0, 1]`. -/
theorem c9_previous_gain_in_unit_interval {G F : Type}
    (noiseStep : G → ℚ × G) (setFrequencyCorners : ℚ → ℝ → ℚ → F → F)
    (filterProcess : F → List ℚ → List ℚ × F)
    (gs : WhiteNoiseGroupState G F) (pInput : List ℚ)
    (sampleRate : ℚ) (bufferSize : ℕ) (drywet q : ℚ) (disabling : Bool) :
    0 ≤ (processChannel noiseStep setFrequencyCorners filterProcess gs pInput
        sampleRate bufferSize drywet q disabling).2.previous_gain ∧
    (processChannel noiseStep setFrequencyCorners filterProcess gs pInput
        sampleRate bufferSize drywet q disabling).2.previous_gain ≤ 1 := by
  have h0 : 0 ≤ wet_gain drywet disabling :=
    le_min (by norm_num) (by positivity)
  have h1 : wet_gain drywet disabling ≤ 1 := min_le_left _ _
  simp only [processChannel]
  split_ifs <;> exact ⟨h0, h1⟩

/-! ### C10: bypass path frame conditions -/

/-- C10: on the bypass fast path (current and previous wet gain both at or
below the threshold) the call leaves the generator state, both filter
states, and the noise and filtered scratch buffers unchanged; it only
stores the new previous gain and previous Q, and the output is the copied
dry input. -/
theorem c10_bypass_frame_conditions {G F : Type}
    (noiseStep : G → ℚ × G) (setFrequencyCorners : ℚ → ℝ → ℚ → F → F)
    (filterProcess : F → List ℚ → List ℚ × F)
    (gs : WhiteNoiseGroupState G F) (pInput : List ℚ)
    (sampleRate : ℚ) (bufferSize : ℕ) (drywet q : ℚ) (disabling : Bool)
    (hg : wet_gain drywet disabling ≤ 1 / 10000)
    (hp : gs.previous_gain ≤ 1 / 10000) :
    (processChannel noiseStep setFrequencyCorners filterProcess gs pInput
        sampleRate bufferSize drywet q disabling).2.gen = gs.gen ∧
    (processChannel noiseStep setFrequencyCorners filterProcess gs pInput
        sampleRate bufferSize drywet q disabling).2.hpFilter = gs.hpFilter ∧
    (processChannel noiseStep setFrequencyCorners filterProcess gs pInput
        sampleRate bufferSize drywet q disabling).2.lpFilter = gs.lpFilter ∧
    (processChannel noiseStep setFrequencyCorners filterProcess gs pInput
        sampleRate bufferSize drywet q disabling).2.m_noiseBuffer = gs.m_noiseBuffer ∧
    (processChannel noiseStep setFrequencyCorners filterProcess gs pInput
        sampleRate bufferSize drywet q disabling).2.m_filteredBuffer = gs.m_filteredBuffer ∧
    (processChannel noiseStep setFrequencyCorners filterProcess gs pInput
        sampleRate bufferSize drywet q disabling).2.previous_gain = wet_gain drywet disabling ∧
    (processChannel noiseStep setFrequencyCorners filterProcess gs pInput
        sampleRate bufferSize drywet q disabling).2.previous_q = q ∧
    (processChannel noiseStep setFrequencyCorners filterProcess gs pInput
        sampleRate bufferSize drywet q disabling).1 = pInput.take bufferSize := by
  have hcond : ¬ (wet_gain drywet disabling > 1 / 10000 ∨ gs.previous_gain > 1 / 10000) := by
    push_neg
    exact ⟨hg, hp⟩
  simp only [processChannel]
  rw [if_neg hcond]
  exact ⟨rfl, rfl, rfl, rfl, rfl, rfl, rfl, rfl⟩

/-- Witness for `c10_bypass_frame_conditions`: generator state is untouched
on the bypass path. -/
theorem c10_bypass_frame_conditions_witness :
    wet_gain (1 / 2) false ≤ 1 / 10000 ∧
    bypassState.previous_gain ≤ 1 / 10000 ∧
    (processChannel unitNoiseStep trivialSetCorners identityProcess bypassState
        [3, 5] 44100 2 (1 / 2) 1 false).2.gen = bypassState.gen :=
  ⟨by norm_num [wet_gain, deadzoned, drywet_deadzone],
    by norm_num [bypassState],
    (c10_bypass_frame_conditions unitNoiseStep trivialSetCorners identityProcess bypassState
        [3, 5] 44100 2 (1 / 2) 1 false
        (by norm_num [wet_gain, deadzoned, drywet_deadzone])
        (by norm_num [bypassState])).1⟩

end WhiteNoise
